import Mathlib

set_option linter.unusedSectionVars false

/-!
Verification of the spec of two extension-host source files of this
repository against a shallow Lean embedding of their code:

* `src/vs/editor/contrib/quickOpen/quickOpen.ts` — the document-symbol
  aggregator (`getDocumentSymbols`, `flatten`, `compareEntriesUsingStart`);
* `src/sql/workbench/api/node/extHostModelViewTree.ts` — the checkable
  tree-view bridge (`ExtHostModelViewTreeViews`, `ExtHostTreeView`).

The tree-view bridge subclasses `vs/workbench/api/node/extHostTreeViews`,
whose source is not part of the excerpt; its cache operations
(`getExtensionElement`, node maps, `clearAll`, `getHandlesToRefresh`,
`createTreeNode`, `updateNodeCache`, the base `createTreeItem`,
`getChildren`, `resolveUnknownParentChain`, `resolveTreeNode`) are
modelled from the spec where needed; every such definition says so in
its doc comment. Everything else is translated directly from the
TypeScript source.
-/

namespace SqlOps

/-! ## Section 1: the document-symbol aggregator (quickOpen.ts) -/

/-- A character-range of a text model; abstract type consumed as given.
Only the four coordinate fields are relevant here. -/
structure IRange where
  startLineNumber : Int
  startColumn : Int
  endLineNumber : Int
  endColumn : Int
deriving DecidableEq

/-- A location: resource identifier plus range. -/
structure Location where
  uri : String
  range : IRange
deriving DecidableEq

/-- A symbol entry as produced by a document-symbol provider.
`containerName` is optional in TypeScript (`string | undefined`), and the
empty string is falsy there, which matters to `flatten`; we model the
field as `Option String` with `none` for `undefined`. -/
structure SymbolInformation where
  name : String
  containerName : Option String
  kind : Nat
  location : Location
deriving DecidableEq

/-- Modelled from the spec: `Range.compareRangesUsingStarts` lives in
`vs/editor/common/core/range.ts`, which is not part of the excerpt.
Spec section 4.1: sort with "primary key = range start position (line then
column), per entry; ties are not further broken". -/
def compareRangesUsingStarts (a b : IRange) : Int :=
  if a.startLineNumber = b.startLineNumber then
    a.startColumn - b.startColumn
  else
    a.startLineNumber - b.startLineNumber

/-- quickOpen.ts line 46: compare two entries by the start of their range. -/
def compareEntriesUsingStart (a b : SymbolInformation) : Int :=
  compareRangesUsingStarts a.location.range b.location.range

/-- The non-strict order induced by the comparator: `a` may precede `b`. -/
def entryLE (a b : SymbolInformation) : Bool :=
  compareEntriesUsingStart a b ≤ 0

/-- JavaScript `s || fallback` on an optional string: `undefined` and the
empty string are falsy. -/
def jsStringOr (s : Option String) (fallback : String) : String :=
  match s with
  | none => fallback
  | some v => if v = "" then fallback else v

/-- quickOpen.ts lines 52-57: the object pushed into the bucket for one
entry by `flatten`. -/
def flattenOne (entry : SymbolInformation) (overrideContainerLabel : String) :
    SymbolInformation :=
  { kind := entry.kind
    location := entry.location
    name := entry.name
    containerName := some (jsStringOr entry.containerName overrideContainerLabel) }

/-- quickOpen.ts lines 50-59: `flatten(bucket, entries, override)` pushes one
fresh object per entry into the bucket; starting from an empty bucket this
is a map over the entries. -/
def flatten (entries : List SymbolInformation) (overrideContainerLabel : String) :
    List SymbolInformation :=
  entries.map (fun entry => flattenOne entry overrideContainerLabel)

/-- The settlement of one provider's `provideDocumentSymbols` call:
it fulfils with an array, fulfils with a non-array value, or
throws/rejects with an error. -/
inductive ProviderOutcome where
  | ok (result : List SymbolInformation)
  | nonArray
  | failed (err : String)
deriving DecidableEq

/-- The result arrays of the providers that fulfilled with an array
(quickOpen.ts line 27: the `Array.isArray(result)` guard). -/
def okResults (ps : List ProviderOutcome) : List (List SymbolInformation) :=
  ps.filterMap fun o =>
    match o with
    | .ok l => some l
    | .nonArray => none
    | .failed _ => none

/-- The aggregator's result shape. -/
structure IOutline where
  entries : List SymbolInformation
deriving DecidableEq

/-- quickOpen.ts lines 18-44, `getDocumentSymbols`: each provider call that
fulfils with an array contributes its entries (line 27-29); a rejection is
routed to `onUnexpectedExternalError` and contributes nothing (line 30-32);
after the join, the entries are flattened with the empty override label and
sorted with `compareEntriesUsingStart`. The input is the list of settled
provider outcomes. -/
def getDocumentSymbols (ps : List ProviderOutcome) : IOutline :=
  let entries := (okResults ps).flatten
  let flatEntries := flatten entries ""
  { entries := flatEntries.mergeSort entryLE }

theorem entryLE_trans (a b c : SymbolInformation) (hab : entryLE a b = true)
    (hbc : entryLE b c = true) : entryLE a c = true := by
  simp only [entryLE, compareEntriesUsingStart, compareRangesUsingStarts,
    decide_eq_true_eq] at *
  split at hab <;> split at hbc <;> split <;> omega

theorem entryLE_total (a b : SymbolInformation) :
    (entryLE a b || entryLE b a) = true := by
  simp only [entryLE, compareEntriesUsingStart, compareRangesUsingStarts,
    Bool.or_eq_true, decide_eq_true_eq]
  split <;> split <;> omega

/-- C1: with `k` of `n` providers failing (throwing, rejecting, or returning
a non-array value), `getDocumentSymbols` returns exactly the flattened union
of the surviving providers' entries, sorted by range start, and the result
depends only on the surviving array results — errors never propagate and
only reduce the result set. -/
theorem getDocumentSymbols_aggregates (ps ps' : List ProviderOutcome)
    (hsame : okResults ps = okResults ps') :
    (getDocumentSymbols ps).entries.Perm (flatten (okResults ps).flatten "") ∧
    List.Pairwise (fun a b => entryLE a b = true) (getDocumentSymbols ps).entries ∧
    getDocumentSymbols ps = getDocumentSymbols ps' := by
  refine ⟨?_, ?_, ?_⟩
  · exact List.mergeSort_perm (flatten (okResults ps).flatten "") entryLE
  · exact List.sorted_mergeSort entryLE_trans entryLE_total
      (flatten (okResults ps).flatten "")
  · simp only [getDocumentSymbols, hsame]

/-- Witness for C1 at a concrete input: one provider returns two entries out
of order, one rejects, one returns a non-array value; the result keeps
exactly the surviving entries, sorted, and equals the run with a different
error payload. -/
theorem getDocumentSymbols_aggregates_witness :
    okResults [ProviderOutcome.ok
        [{ name := "b", containerName := none, kind := 1,
           location := { uri := "u", range := ⟨2, 1, 2, 5⟩ } },
         { name := "a", containerName := some "c", kind := 0,
           location := { uri := "u", range := ⟨1, 1, 1, 3⟩ } }],
      ProviderOutcome.failed "boom", ProviderOutcome.nonArray] =
      okResults [ProviderOutcome.ok
        [{ name := "b", containerName := none, kind := 1,
           location := { uri := "u", range := ⟨2, 1, 2, 5⟩ } },
         { name := "a", containerName := some "c", kind := 0,
           location := { uri := "u", range := ⟨1, 1, 1, 3⟩ } }],
      ProviderOutcome.nonArray, ProviderOutcome.failed "other"] ∧
    ((getDocumentSymbols [ProviderOutcome.ok
        [{ name := "b", containerName := none, kind := 1,
           location := { uri := "u", range := ⟨2, 1, 2, 5⟩ } },
         { name := "a", containerName := some "c", kind := 0,
           location := { uri := "u", range := ⟨1, 1, 1, 3⟩ } }],
      ProviderOutcome.failed "boom", ProviderOutcome.nonArray]).entries.Perm
        (flatten (okResults [ProviderOutcome.ok
        [{ name := "b", containerName := none, kind := 1,
           location := { uri := "u", range := ⟨2, 1, 2, 5⟩ } },
         { name := "a", containerName := some "c", kind := 0,
           location := { uri := "u", range := ⟨1, 1, 1, 3⟩ } }],
      ProviderOutcome.failed "boom", ProviderOutcome.nonArray]).flatten "") ∧
      List.Pairwise (fun a b => entryLE a b = true)
        (getDocumentSymbols [ProviderOutcome.ok
        [{ name := "b", containerName := none, kind := 1,
           location := { uri := "u", range := ⟨2, 1, 2, 5⟩ } },
         { name := "a", containerName := some "c", kind := 0,
           location := { uri := "u", range := ⟨1, 1, 1, 3⟩ } }],
      ProviderOutcome.failed "boom", ProviderOutcome.nonArray]).entries ∧
      getDocumentSymbols [ProviderOutcome.ok
        [{ name := "b", containerName := none, kind := 1,
           location := { uri := "u", range := ⟨2, 1, 2, 5⟩ } },
         { name := "a", containerName := some "c", kind := 0,
           location := { uri := "u", range := ⟨1, 1, 1, 3⟩ } }],
      ProviderOutcome.failed "boom", ProviderOutcome.nonArray] =
      getDocumentSymbols [ProviderOutcome.ok
        [{ name := "b", containerName := none, kind := 1,
           location := { uri := "u", range := ⟨2, 1, 2, 5⟩ } },
         { name := "a", containerName := some "c", kind := 0,
           location := { uri := "u", range := ⟨1, 1, 1, 3⟩ } }],
      ProviderOutcome.nonArray, ProviderOutcome.failed "other"]) :=
  ⟨by decide, getDocumentSymbols_aggregates _ _ (by decide)⟩

/-- C9: flattening preserves kind, location and name; it keeps a non-empty
`containerName` untouched and replaces a missing or empty one with the
caller-supplied override label. -/
theorem flatten_containerName (entry : SymbolInformation)
    (overrideContainerLabel : String) :
    (flattenOne entry overrideContainerLabel).kind = entry.kind ∧
    (flattenOne entry overrideContainerLabel).location = entry.location ∧
    (flattenOne entry overrideContainerLabel).name = entry.name ∧
    (∀ s, entry.containerName = some s → s ≠ "" →
      (flattenOne entry overrideContainerLabel).containerName = some s) ∧
    ((entry.containerName = none ∨ entry.containerName = some "") →
      (flattenOne entry overrideContainerLabel).containerName =
        some overrideContainerLabel) ∧
    (flatten [entry] overrideContainerLabel =
      [flattenOne entry overrideContainerLabel]) := by
  refine ⟨rfl, rfl, rfl, ?_, ?_, rfl⟩
  · intro s hs hne
    simp [flattenOne, jsStringOr, hs, hne]
  · intro h
    rcases h with h | h <;> simp [flattenOne, jsStringOr, h]

/-- Witness for C9 at concrete entries: a non-empty container name survives,
an absent one is replaced by the override label. -/
theorem flatten_containerName_witness :
    ({ name := "a", containerName := some "box", kind := 2,
       location := { uri := "u", range := ⟨1, 1, 1, 2⟩ } } :
        SymbolInformation).containerName = some "box" ∧
    (flattenOne { name := "a", containerName := some "box", kind := 2,
                  location := { uri := "u", range := ⟨1, 1, 1, 2⟩ } }
       "lbl").containerName = some "box" ∧
    (flattenOne { name := "a", containerName := none, kind := 2,
                  location := { uri := "u", range := ⟨1, 1, 1, 2⟩ } }
       "lbl").containerName = some "lbl" :=
  ⟨by decide,
   (flatten_containerName
      { name := "a", containerName := some "box", kind := 2,
        location := { uri := "u", range := ⟨1, 1, 1, 2⟩ } } "lbl").2.2.2.1
      "box" (by decide) (by decide),
   (flatten_containerName
      { name := "a", containerName := none, kind := 2,
        location := { uri := "u", range := ⟨1, 1, 1, 2⟩ } } "lbl").2.2.2.2.1
      (Or.inl (by decide))⟩

/-! ## Section 2: the tree-view bridge (extHostModelViewTree.ts)

The element type `T` is the extension-defined generic parameter; elements
are compared by (decidable) equality as Map keys are in the source. -/

/-- A single-quote character, used inside the source's error messages. -/
def quoteChar : String := String.singleton (Char.ofNat 39)

/-- The extension-supplied tree item (`sqlops.TreeComponentItem`): the base
display fields plus the `checked` field that the subclass projection copies. -/
structure TreeComponentItem where
  label : Option String
  checked : Option Bool
deriving DecidableEq

/-- The serializable display item sent to the host (`ITreeComponentItem`):
the node's handle, the base projection fields, and the checked state. -/
structure ITreeComponentItem where
  handle : String
  label : Option String
  checked : Option Bool
deriving DecidableEq

/-- The extension's data provider (`sqlops.TreeComponentDataProvider<T>`).
`getParent := none` models a provider on which `typeof getParent !==
'function'`; `getTreeItem` returning `none` models a falsy result. The
provider's own `onNodeCheckedChanged` callback body is outside the model:
the bridge records the arguments it forwards to it. -/
structure TreeComponentDataProvider (T : Type) where
  getChildren : Option T → List T
  getTreeItem : T → Option TreeComponentItem
  getParent : Option (T → Option T)

/-- A cached tree node: handle, display item, and the parent link (as the
parent's handle, `none` for a root). -/
structure TreeNode where
  handle : String
  item : ITreeComponentItem
  parentHandle : Option String
deriving DecidableEq

/-- The node cache of one tree view: the element → node map (`this.nodes`),
with the handle → element reverse index read off the same association list,
and the collision-free handle allocator counter. -/
structure TreeViewState (T : Type) where
  nodes : List (T × TreeNode)
  counter : Nat

/-- The empty cache of a freshly created view. -/
def emptyTreeViewState (T : Type) : TreeViewState T := { nodes := [], counter := 0 }

variable {T : Type} [DecidableEq T]

/-- Reverse lookup handle → element (`getExtensionElement` of the base
class, modelled from the spec: "getHandle/reverse index"; extensionally the
first cached element whose node carries the handle). -/
def getExtensionElement (st : TreeViewState T) (h : String) : Option T :=
  (st.nodes.find? (fun p => decide (p.2.handle = h))).map (fun p => p.1)

/-- Lookup element → node (`this.nodes.get(element)`). -/
def getNode (st : TreeViewState T) (el : T) : Option TreeNode :=
  (st.nodes.find? (fun p => decide (p.1 = el))).map (fun p => p.2)

/-- Modelled from the spec: the base-class handle allocator, "monotonic/
collision-free within one bridge's lifetime". -/
def freshHandle (st : TreeViewState T) : String :=
  "0/" ++ toString st.counter

/-- Modelled from the spec: handle assignment reuses the cached node's
handle when the element is already known ("Handles are never reused for a
different live element while the original remains cached"; `update`
"preserves handle"). -/
def createHandle (st : TreeViewState T) (el : T) : String :=
  match getNode st el with
  | some n => n.handle
  | none => freshHandle st

/-- Modelled from the spec: the base-class `createTreeItem` projection of an
extension tree item to the serializable display item (spec section 3:
"DisplayItem: the serializable projection of a TreeNode sent to the host").
The base class does not populate the `checked` field. -/
def baseCreateTreeItem (st : TreeViewState T) (el : T)
    (extensionTreeItem : TreeComponentItem) (_parent : Option String) :
    ITreeComponentItem :=
  { handle := createHandle st el
    label := extensionTreeItem.label
    checked := none }

/-- extHostModelViewTree.ts lines 135-139, the subclass override: take the
base projection and extend a fresh copy with the `checked` field
(`Object.assign(\x7b\x7d, item, \x7b checked: extensionTreeItem.checked \x7d)`). -/
def createTreeItem (st : TreeViewState T) (el : T)
    (extensionTreeItem : TreeComponentItem) (parent : Option String) :
    ITreeComponentItem :=
  let item := baseCreateTreeItem st el extensionTreeItem parent
  { item with checked := extensionTreeItem.checked }

/-- Modelled from the spec: the base-class `createTreeNode` bundles the
projected display item with the parent link. -/
def createTreeNode (st : TreeViewState T) (el : T)
    (extTreeItem : TreeComponentItem) (parentHandle : Option String) : TreeNode :=
  { handle := createHandle st el
    item := createTreeItem st el extTreeItem parentHandle
    parentHandle := parentHandle }

/-- Modelled from the spec: `update(element, newItem, existingNode, parent)`
"replaces the display item in place, preserves handle and parent linkage" —
the entry stored under the element is replaced by the rebuilt node. -/
def updateNodeCache (st : TreeViewState T) (el : T) (newNode : TreeNode) :
    TreeViewState T :=
  { st with nodes := st.nodes.map (fun p => if p.1 = el then (el, newNode) else p) }

/-- Modelled from the spec: `insert(element, item, parent)` "allocates a new
handle, stores the node, updates both indices". -/
def insertNode (st : TreeViewState T) (el : T) (node : TreeNode) :
    TreeViewState T :=
  { nodes := (el, node) :: st.nodes, counter := st.counter + 1 }

/-- Modelled from the spec: `clearAll()` "empties the cache entirely (used
on root-level refresh)". -/
def clearAll (st : TreeViewState T) : TreeViewState T :=
  { st with nodes := [] }

/-- An outbound call to the host proxy (`MainThreadModelViewShape`):
`$refreshDataProvider` with the items argument omitted (full redraw) or
with the handle → item map. -/
inductive HostCall where
  | refreshAll (handle : Nat) (componentId : String)
  | refreshItems (handle : Nat) (componentId : String)
      (items : List (String × ITreeComponentItem))
deriving DecidableEq

/-- A call into the extension's data provider, recorded for the
non-invocation parts of the spec. -/
inductive ProviderCall (T : Type) where
  | getParentCall (el : T)
  | getTreeItemCall (el : T)
  | getChildrenCall (el : Option T)
deriving DecidableEq

/-- One tree view bridge instance (`ExtHostTreeView<T>` of
extHostModelViewTree.ts): the component handle and id passed to the host
proxy, the bound data provider, and the node cache. -/
structure ExtHostTreeView (T : Type) where
  handle : Nat
  componentId : String
  provider : TreeComponentDataProvider T
  state : TreeViewState T

/-- extHostModelViewTree.ts lines 120-133, `refreshNode(treeItemHandle)`:
resolve the handle to its element, look up the existing node, refetch the
tree item from the provider; a falsy tree item yields `null` and no cache
change; otherwise the rebuilt node (same parent as the existing node, per
line 127-128) replaces the cached one. The source would throw on a handle
or node lookup miss (`existing.parent` on `undefined`); its only caller
passes handles read from the cache, and the model returns no node there. -/
def ExtHostTreeView.refreshNode (tv : ExtHostTreeView T) (treeItemHandle : String) :
    ExtHostTreeView T × Option TreeNode :=
  match getExtensionElement tv.state treeItemHandle with
  | none => (tv, none)
  | some extElement =>
    match getNode tv.state extElement with
    | none => (tv, none)
    | some existing =>
      match tv.provider.getTreeItem extElement with
      | none => (tv, none)
      | some extTreeItem =>
        let newNode := createTreeNode tv.state extElement extTreeItem existing.parentHandle
        ({ tv with state := updateNodeCache tv.state extElement newNode }, some newNode)

/-- Modelled from the spec: the base-class `getHandlesToRefresh` maps each
affected element to its cached handle; "refreshed elements whose handle
lookup fails are silently dropped". -/
def getHandlesToRefresh (st : TreeViewState T) (elements : List (Option T)) :
    List String :=
  elements.filterMap (fun oe => oe.bind (fun e => (getNode st e).map (fun n => n.handle)))

/-- extHostModelViewTree.ts lines 110-116: run `refreshNode` for each handle
in turn, collecting `itemsToRefresh` from the nodes that resolved. -/
def runRefreshHandles (tv : ExtHostTreeView T) (itemHandles : List String) :
    ExtHostTreeView T × List (String × ITreeComponentItem) :=
  itemHandles.foldl
    (fun acc h =>
      let step := acc.1.refreshNode h
      match step.2 with
      | some n => (step.1, acc.2 ++ [(h, n.item)])
      | none => (step.1, acc.2))
    (tv, [])

/-- extHostModelViewTree.ts lines 108-118, `refreshHandles(itemHandles)`:
refresh every handle, then notify the host once — only when
`Object.keys(itemsToRefresh).length` is non-zero (line 117). -/
def ExtHostTreeView.refreshHandles (tv : ExtHostTreeView T)
    (itemHandles : List String) : ExtHostTreeView T × List HostCall :=
  let run := runRefreshHandles tv itemHandles
  if run.2.isEmpty then (run.1, [])
  else (run.1, [HostCall.refreshItems tv.handle tv.componentId run.2])

/-- extHostModelViewTree.ts lines 95-106, `refresh(elements)`: a falsy
element in the batch (modelled `none`) means root refresh — clear the whole
cache and call `$refreshDataProvider(handle, componentId)` with the items
argument omitted; otherwise resolve the handles to refresh and, only when
some exist (line 102), run the per-handle path. -/
def ExtHostTreeView.refresh (tv : ExtHostTreeView T) (elements : List (Option T)) :
    ExtHostTreeView T × List HostCall :=
  if elements.any (fun e => e.isNone) then
    ({ tv with state := clearAll tv.state },
     [HostCall.refreshAll tv.handle tv.componentId])
  else
    let handlesToRefresh := getHandlesToRefresh tv.state elements
    if handlesToRefresh.isEmpty then (tv, [])
    else tv.refreshHandles handlesToRefresh

/-- The outcome of `reveal`: the (possibly updated) cache, the settled
promise, and the provider calls issued along the way. -/
structure RevealResult (T : Type) where
  state : TreeViewState T
  result : Except String Unit
  calls : List (ProviderCall T)

/-- extHostModelViewTree.ts line 87: the rejection message of `reveal` when
the provider has no `getParent` function. -/
def capabilityMissingMsg : String :=
  "Required registered TreeDataProvider to implement " ++ quoteChar ++
    "getParent" ++ quoteChar ++ " method to access " ++ quoteChar ++ "reveal" ++
    quoteChar ++ " method"

/-- Modelled from the spec: the base-class `resolveUnknownParentChain` walks
`getParent` "until a root (none) is reached", collecting the ancestor chain
top-down. `fuel` bounds the walk (the source's recursion likewise fails to
terminate on a cyclic `getParent`). -/
def ancestorChain (getParentFn : T → Option T) : Nat → T →
    List T × List (ProviderCall T)
  | 0, _ => ([], [])
  | fuel + 1, el =>
    match getParentFn el with
    | none => ([], [ProviderCall.getParentCall el])
    | some p =>
      let rest := ancestorChain getParentFn fuel p
      (rest.1 ++ [p], ProviderCall.getParentCall el :: rest.2)

/-- Modelled from the spec: the base-class `resolveTreeNode` "ensures each
ancestor is materialized in the cache (creating nodes top-down so parent
links are valid before children)" — a cached node is reused, otherwise the
provider's tree item is fetched and inserted. -/
def resolveTreeNode (provider : TreeComponentDataProvider T)
    (st : TreeViewState T) (el : T) (parentHandle : Option String) :
    TreeViewState T × Option String × List (ProviderCall T) :=
  match getNode st el with
  | some n => (st, some n.handle, [])
  | none =>
    match provider.getTreeItem el with
    | none => (st, none, [ProviderCall.getTreeItemCall el])
    | some it =>
      let node := createTreeNode st el it parentHandle
      (insertNode st el node, some node.handle, [ProviderCall.getTreeItemCall el])

/-- Modelled from the spec: materialize a top-down chain of elements,
threading the cache and each node's handle as the next parent link. -/
def materializeChain (provider : TreeComponentDataProvider T) :
    TreeViewState T → Option String → List T →
    TreeViewState T × Option String × List (ProviderCall T)
  | st, parentHandle, [] => (st, parentHandle, [])
  | st, parentHandle, el :: rest =>
    let step := resolveTreeNode provider st el parentHandle
    let tail := materializeChain provider step.1 step.2.1 rest
    (tail.1, tail.2.1, step.2.2 ++ tail.2.2)

/-- extHostModelViewTree.ts lines 85-93, `reveal(element, options)`: when
the bound provider has no `getParent` function the call is rejected with
the capability message, before any provider call or cache access; otherwise
the ancestor chain is resolved and materialized (base-class behaviour,
modelled from the spec) and the promise resolves with no value. -/
def ExtHostTreeView.reveal (tv : ExtHostTreeView T) (element : T) (fuel : Nat) :
    RevealResult T :=
  match tv.provider.getParent with
  | none =>
    { state := tv.state, result := Except.error capabilityMissingMsg, calls := [] }
  | some getParentFn =>
    let chain := ancestorChain getParentFn fuel element
    let materialized := materializeChain tv.provider tv.state none (chain.1 ++ [element])
    { state := materialized.1, result := Except.ok (), calls := chain.2 ++ materialized.2.2 }

/-- extHostModelViewTree.ts lines 76-83, `onNodeCheckedChanged(parentHandle,
checked)` on one view: resolve the handle to its element when present, log
an error when a handle was supplied but no element resolves (line 78-80),
and forward `(parentElement, checked)` to the provider unconditionally
(line 82). The result is the pair (logged errors, forwarded calls). -/
def ExtHostTreeView.onNodeCheckedChanged (tv : ExtHostTreeView T)
    (parentHandle : Option String) (checked : Option Bool) :
    List String × List (Option T × Option Bool) :=
  let parentElement := match parentHandle with
    | none => none
    | some h => getExtensionElement tv.state h
  let logs := match parentHandle with
    | none => []
    | some h =>
      if (getExtensionElement tv.state h).isNone then
        ["No tree item with id " ++ quoteChar ++ h ++ quoteChar ++ " found."]
      else []
  (logs, [(parentElement, checked)])

/-- Modelled from the spec: the base-class `getChildren` "delegates to the
provider's child-enumeration, materializes each returned element into the
cache, and returns the display items". -/
def materializeChildren (tv : ExtHostTreeView T) (parentElement : Option T)
    (parentHandle : Option String) : ExtHostTreeView T × List ITreeComponentItem :=
  (tv.provider.getChildren parentElement).foldl
    (fun acc child =>
      match getNode acc.1.state child with
      | some n => (acc.1, acc.2 ++ [n.item])
      | none =>
        match acc.1.provider.getTreeItem child with
        | none => (acc.1, acc.2)
        | some it =>
          let node := createTreeNode acc.1.state child it parentHandle
          ({ acc.1 with state := insertNode acc.1.state child node },
           acc.2 ++ [node.item]))
    (tv, [])

/-- Modelled from the spec: one view's `getChildren(handle-or-root)`; spec
section 4.2: "fetching children of a handle absent from the cache is
reported as an error to the caller (host), not a crash". -/
def ExtHostTreeView.getChildren (tv : ExtHostTreeView T)
    (treeItemHandle : Option String) :
    Except String (ExtHostTreeView T × List ITreeComponentItem) :=
  match treeItemHandle with
  | none => Except.ok (materializeChildren tv none none)
  | some h =>
    match getExtensionElement tv.state h with
    | none =>
      Except.error ("No tree item with id " ++ quoteChar ++ h ++ quoteChar ++ " found.")
    | some el => Except.ok (materializeChildren tv (some el) (some h))

/-- The registry of live tree views (`ExtHostModelViewTreeViews.treeViews`),
an association list standing for the `Map<string, ExtHostTreeView<any>>`. -/
structure ExtHostModelViewTreeViews (T : Type) where
  treeViews : List (String × ExtHostTreeView T)

/-- The empty registry. -/
def emptyTreeViews (T : Type) : ExtHostModelViewTreeViews T := { treeViews := [] }

/-- `this.treeViews.get(id)`: the first entry under the key. -/
def lookupTreeView (reg : ExtHostModelViewTreeViews T) (id : String) :
    Option (ExtHostTreeView T) :=
  (reg.treeViews.find? (fun p => decide (p.1 = id))).map (fun p => p.2)

/-- extHostModelViewTree.ts line 65: the registration key is the composite
string `handle + "-" + componentId`. -/
def treeViewKey (handle : Nat) (componentId : String) : String :=
  toString handle ++ "-" ++ componentId

/-- extHostModelViewTree.ts lines 63-67, `createExtHostTreeViewer`: build
the view with an empty cache and register it under the composite key. -/
def createExtHostTreeViewer (reg : ExtHostModelViewTreeViews T) (handle : Nat)
    (id : String) (dataProvider : TreeComponentDataProvider T) :
    ExtHostModelViewTreeViews T :=
  { treeViews :=
      (treeViewKey handle id,
        { handle := handle, componentId := id, provider := dataProvider,
          state := emptyTreeViewState T }) :: reg.treeViews }

/-- extHostModelViewTree.ts lines 30-45, `$createTreeView`: options without
a data provider are an error; otherwise the viewer is created and
registered. The returned wrapper's `dispose` is `disposeTreeView` below. -/
def dollarCreateTreeView (reg : ExtHostModelViewTreeViews T) (handle : Nat)
    (componentId : String)
    (options : Option (TreeComponentDataProvider T)) :
    Except String (ExtHostModelViewTreeViews T) :=
  match options with
  | none => Except.error "Options with treeDataProvider is mandatory"
  | some dataProvider =>
    Except.ok (createExtHostTreeViewer reg handle componentId dataProvider)

/-- extHostModelViewTree.ts line 41: the wrapper returned by
`$createTreeView` disposes by `this.treeViews.delete(componentId)` — the
bare component id, not the composite registration key. -/
def disposeTreeView (reg : ExtHostModelViewTreeViews T) (componentId : String) :
    ExtHostModelViewTreeViews T :=
  { treeViews := reg.treeViews.filter (fun p => decide (p.1 ≠ componentId)) }

/-- extHostModelViewTree.ts line 51: the rejection message of `$getChildren`
for an unregistered view id (the resolved `localize` format string). -/
def notRegisteredMsg (treeViewId : String) : String :=
  "No tree view with id " ++ quoteChar ++ treeViewId ++ quoteChar ++ " registered."

/-- extHostModelViewTree.ts lines 47-54, `$getChildren(treeViewId, handle)`:
an unregistered id rejects with the not-registered message; otherwise the
call is delegated to the view. -/
def dollarGetChildren (reg : ExtHostModelViewTreeViews T) (treeViewId : String)
    (treeItemHandle : Option String) :
    Except String (ExtHostTreeView T × List ITreeComponentItem) :=
  match lookupTreeView reg treeViewId with
  | none => Except.error (notRegisteredMsg treeViewId)
  | some treeView => treeView.getChildren treeItemHandle

/-- extHostModelViewTree.ts lines 56-61, `$onNodeCheckedChanged(treeViewId,
handle, checked)`: an unregistered id is a silent no-op (no log, no
provider call); a registered view handles the change. -/
def dollarOnNodeCheckedChanged (reg : ExtHostModelViewTreeViews T)
    (treeViewId : String) (treeItemHandle : Option String)
    (checked : Option Bool) : List String × List (Option T × Option Bool) :=
  match lookupTreeView reg treeViewId with
  | none => ([], [])
  | some treeView => treeView.onNodeCheckedChanged treeItemHandle checked

/-! ## Concrete instances used by the witnesses -/

/-- A concrete data provider over `Nat` elements with no `getParent`. -/
def demoProvider : TreeComponentDataProvider Nat :=
  { getChildren := fun _ => []
    getTreeItem := fun _ => some { label := some "y", checked := some true }
    getParent := none }

/-- A concrete cached node. -/
def demoNode : TreeNode :=
  { handle := "h5"
    item := { handle := "h5", label := some "x", checked := none }
    parentHandle := some "hp" }

/-- A concrete cache holding `demoNode` under element `5`. -/
def demoState : TreeViewState Nat := { nodes := [(5, demoNode)], counter := 1 }

/-- A concrete tree view over that cache. -/
def demoTreeView : ExtHostTreeView Nat :=
  { handle := 1, componentId := "v", provider := demoProvider, state := demoState }

/-- A concrete registry holding `demoTreeView` under its composite key. -/
def demoRegistry : ExtHostModelViewTreeViews Nat :=
  { treeViews := [("1-v", demoTreeView)] }

/-! ## Helper lemmas -/

theorem find?_map_update (l : List (T × TreeNode)) (el : T) (n : TreeNode)
    (h : (l.find? (fun p => decide (p.1 = el))).isSome) :
    (l.map (fun p => if p.1 = el then (el, n) else p)).find?
      (fun p => decide (p.1 = el)) = some (el, n) := by
  induction l with
  | nil => simp at h
  | cons a tl ih =>
    by_cases ha : a.1 = el
    · simp [List.find?, ha]
    · simp only [List.map_cons, if_neg ha]
      rw [List.find?_cons_of_neg _ (by simpa using ha)]
      apply ih
      rw [List.find?_cons_of_neg _ (by simpa using ha)] at h
      exact h

theorem getNode_updateNodeCache (st : TreeViewState T) (el : T) (n : TreeNode)
    (h : (getNode st el).isSome) :
    getNode (updateNodeCache st el n) el = some n := by
  have h' : (st.nodes.find? (fun p => decide (p.1 = el))).isSome := by
    simpa [getNode] using h
  simp [getNode, updateNodeCache, find?_map_update st.nodes el n h']

theorem filterMap_filter_of_none {α β : Type _} (f : α → Option β)
    (p : α → Bool) (l : List α) (h : ∀ a ∈ l, p a = false → f a = none) :
    (l.filter p).filterMap f = l.filterMap f := by
  induction l with
  | nil => simp
  | cons a tl ih =>
    have htl : ∀ x ∈ tl, p x = false → f x = none := fun x hx =>
      h x (List.mem_cons_of_mem _ hx)
    by_cases hp : p a = true
    · simp [List.filter_cons, hp, List.filterMap_cons, ih htl]
    · have hpf : p a = false := by simpa using hp
      have hfa : f a = none := h a (List.mem_cons_self _ _) hpf
      simp [List.filter_cons, hpf, List.filterMap_cons, hfa, ih htl]

/-! ## Claim theorems for the tree-view bridge -/

/-- C10: the subclass `createTreeItem` returns the base projection extended
with exactly the `checked` field copied from the extension tree item; every
other field is the base projection's (the base value itself is a pure
function result and is not mutated). -/
theorem createTreeItem_extends_base (st : TreeViewState T) (el : T)
    (extensionTreeItem : TreeComponentItem) (parent : Option String) :
    createTreeItem st el extensionTreeItem parent =
      { baseCreateTreeItem st el extensionTreeItem parent with
          checked := extensionTreeItem.checked } ∧
    (createTreeItem st el extensionTreeItem parent).handle =
      (baseCreateTreeItem st el extensionTreeItem parent).handle ∧
    (createTreeItem st el extensionTreeItem parent).label =
      (baseCreateTreeItem st el extensionTreeItem parent).label ∧
    (createTreeItem st el extensionTreeItem parent).checked =
      extensionTreeItem.checked :=
  ⟨rfl, rfl, rfl, rfl⟩

/-- C5: refreshing a cached node rebuilds it from the provider's new tree
item under the same element, with the same handle and the same parent link
as the existing node. -/
theorem refreshNode_preserves_handle_parent (tv : ExtHostTreeView T)
    (h : String) (el : T) (existing : TreeNode)
    (extTreeItem : TreeComponentItem)
    (h1 : getExtensionElement tv.state h = some el)
    (h2 : getNode tv.state el = some existing)
    (h3 : tv.provider.getTreeItem el = some extTreeItem) :
    ∃ n, (tv.refreshNode h).2 = some n ∧
      n.handle = existing.handle ∧
      n.parentHandle = existing.parentHandle ∧
      getNode (tv.refreshNode h).1.state el = some n := by
  have hch : createHandle tv.state el = existing.handle := by
    simp [createHandle, h2]
  refine ⟨createTreeNode tv.state el extTreeItem existing.parentHandle, ?_, ?_, rfl, ?_⟩
  · simp [ExtHostTreeView.refreshNode, h1, h2, h3]
  · simpa [createTreeNode] using hch
  · simp only [ExtHostTreeView.refreshNode, h1, h2, h3]
    exact getNode_updateNodeCache tv.state el _ (by simp [h2])

/-- Witness for C5: refreshing the cached element `5` of the demo view keeps
handle `"h5"` and parent `"hp"`. -/
theorem refreshNode_preserves_handle_parent_witness :
    getExtensionElement demoTreeView.state "h5" = some 5 ∧
    getNode demoTreeView.state 5 = some demoNode ∧
    demoTreeView.provider.getTreeItem 5 =
      some { label := some "y", checked := some true } ∧
    ∃ n, (demoTreeView.refreshNode "h5").2 = some n ∧
      n.handle = demoNode.handle ∧
      n.parentHandle = demoNode.parentHandle ∧
      getNode (demoTreeView.refreshNode "h5").1.state 5 = some n :=
  ⟨rfl, rfl, rfl,
   refreshNode_preserves_handle_parent demoTreeView "h5" 5 demoNode
     { label := some "y", checked := some true } rfl rfl rfl⟩

/-- C3: a refresh batch containing the root sentinel clears the entire
cache and issues exactly one `$refreshDataProvider(handle, componentId)`
call with the items argument omitted — no per-handle refresh happens for
the other elements of the batch. -/
theorem refresh_root_clears_and_redraws (tv : ExtHostTreeView T)
    (elements : List (Option T)) (h : none ∈ elements) :
    tv.refresh elements =
      ({ tv with state := clearAll tv.state },
       [HostCall.refreshAll tv.handle tv.componentId]) := by
  have hany : elements.any (fun e => e.isNone) = true :=
    List.any_eq_true.mpr ⟨none, h, rfl⟩
  simp [ExtHostTreeView.refresh, hany]

/-- Witness for C3: a batch mixing a concrete element with the root sentinel
still clears the cache and requests a full redraw. -/
theorem refresh_root_clears_and_redraws_witness :
    none ∈ [some 5, none] ∧
    demoTreeView.refresh [some 5, none] =
      ({ demoTreeView with state := clearAll demoTreeView.state },
       [HostCall.refreshAll demoTreeView.handle demoTreeView.componentId]) :=
  ⟨by decide, refresh_root_clears_and_redraws demoTreeView [some 5, none] (by decide)⟩

/-- C6: `reveal` on a view whose provider has no `getParent` function
settles with exactly the capability-missing error naming `getParent`, calls
no provider method, and leaves the cache untouched. -/
theorem reveal_requires_getParent (tv : ExtHostTreeView T) (element : T)
    (fuel : Nat) (h : tv.provider.getParent = none) :
    tv.reveal element fuel =
      { state := tv.state, result := Except.error capabilityMissingMsg,
        calls := [] } ∧
    ∃ pre post, capabilityMissingMsg = pre ++ "getParent" ++ post := by
  constructor
  · simp [ExtHostTreeView.reveal, h]
  · exact ⟨"Required registered TreeDataProvider to implement " ++ quoteChar,
      quoteChar ++ " method to access " ++ quoteChar ++ "reveal" ++ quoteChar ++
        " method",
      by simp [capabilityMissingMsg, String.append_assoc]⟩

/-- Witness for C6: revealing element `5` on the demo view (whose provider
lacks `getParent`) fails with the capability error and no provider call. -/
theorem reveal_requires_getParent_witness :
    demoTreeView.provider.getParent = none ∧
    (demoTreeView.reveal 5 7 =
      { state := demoTreeView.state,
        result := Except.error capabilityMissingMsg, calls := [] } ∧
     ∃ pre post, capabilityMissingMsg = pre ++ "getParent" ++ post) :=
  ⟨rfl, reveal_requires_getParent demoTreeView 5 7 rfl⟩

/-- The elements of a refresh batch that resolve in the cache (the ones the
base-class handle lookup keeps). -/
def keepCached (st : TreeViewState T) : Option T → Bool
  | some e => (getNode st e).isSome
  | none => false

/-- C4: on a batch without the root sentinel, elements whose handle lookup
fails are dropped without affecting the outcome (refreshing the batch
equals refreshing only its cached elements); each resolved handle is
refetched through `refreshNode` and the collected handle → item map is sent
to the host in a single `$refreshDataProvider` call exactly when it is
non-empty; when no element resolves, no host call is made at all. -/
theorem refresh_nonRoot_drops_and_batches (tv : ExtHostTreeView T)
    (elements : List (Option T)) (hnr : ∀ e ∈ elements, e ≠ none) :
    tv.refresh elements = tv.refresh (elements.filter (keepCached tv.state)) ∧
    (tv.refresh elements).2 =
      (if ((runRefreshHandles tv (getHandlesToRefresh tv.state elements)).2).isEmpty
       then []
       else [HostCall.refreshItems tv.handle tv.componentId
         (runRefreshHandles tv (getHandlesToRefresh tv.state elements)).2]) ∧
    ((∀ x, some x ∈ elements → getNode tv.state x = none) →
      (tv.refresh elements).2 = []) := by
  have hany : elements.any (fun e => e.isNone) = false :=
    List.any_eq_false.mpr (fun x hx => by
      simp [Option.isNone_iff_eq_none]
      exact hnr x hx)
  have hany2 : (elements.filter (keepCached tv.state)).any (fun e => e.isNone) = false :=
    List.any_eq_false.mpr (fun x hx => by
      simp [Option.isNone_iff_eq_none]
      exact hnr x (List.mem_of_mem_filter hx))
  have hhandles : getHandlesToRefresh tv.state (elements.filter (keepCached tv.state)) =
      getHandlesToRefresh tv.state elements := by
    unfold getHandlesToRefresh
    apply filterMap_filter_of_none
    intro a _ hpa
    match a with
    | none => rfl
    | some e =>
      have hge : getNode tv.state e = none := by
        cases hg : getNode tv.state e with
        | none => rfl
        | some n => simp [keepCached, hg] at hpa
      simp [hge]
  refine ⟨?_, ?_, ?_⟩
  · simp only [ExtHostTreeView.refresh, hany, hany2, hhandles, Bool.false_eq_true,
      if_false]
  · simp only [ExtHostTreeView.refresh, hany, Bool.false_eq_true, if_false]
    cases hemp : (getHandlesToRefresh tv.state elements).isEmpty with
    | true =>
      have : getHandlesToRefresh tv.state elements = [] := by
        simpa [List.isEmpty_iff] using hemp
      simp [this, hemp, runRefreshHandles]
    | false =>
      simp only [hemp, Bool.false_eq_true, if_false, ExtHostTreeView.refreshHandles]
      cases hrun : (runRefreshHandles tv (getHandlesToRefresh tv.state elements)).2.isEmpty <;>
        simp [hrun]
  · intro hall
    have hnilh : getHandlesToRefresh tv.state elements = [] := by
      unfold getHandlesToRefresh
      apply List.filterMap_eq_nil_iff.mpr
      intro a ha
      match a with
      | none => rfl
      | some e => simp [hall e ha]
    simp [ExtHostTreeView.refresh, hany, hnilh]

/-- Witness for C4: refreshing `[some 5, some 99]` on the demo view (5
cached, 99 unknown) equals refreshing `[some 5]` alone and sends a single
batched host call; refreshing `[some 99]` alone sends nothing. -/
theorem refresh_nonRoot_drops_and_batches_witness :
    (∀ e ∈ [some 5, some (99 : Nat)], e ≠ none) ∧
    (demoTreeView.refresh [some 5, some 99] =
        demoTreeView.refresh ([some 5, some 99].filter (keepCached demoTreeView.state)) ∧
      (demoTreeView.refresh [some 5, some 99]).2 =
        (if ((runRefreshHandles demoTreeView
              (getHandlesToRefresh demoTreeView.state [some 5, some 99])).2).isEmpty
         then []
         else [HostCall.refreshItems demoTreeView.handle demoTreeView.componentId
           (runRefreshHandles demoTreeView
             (getHandlesToRefresh demoTreeView.state [some 5, some 99])).2]) ∧
      ((∀ x, some x ∈ [some 5, some (99 : Nat)] → getNode demoTreeView.state x = none) →
        (demoTreeView.refresh [some 5, some 99]).2 = [])) ∧
    (∀ e ∈ [some (99 : Nat)], e ≠ none) ∧
    (demoTreeView.refresh [some 99]).2 = [] :=
  ⟨by decide,
   refresh_nonRoot_drops_and_batches demoTreeView [some 5, some 99] (by decide),
   by decide,
   (refresh_nonRoot_drops_and_batches demoTreeView [some 99] (by decide)).2.2
     (by
       intro x hx
       have hx99 : x = 99 := by simpa using hx
       subst hx99
       rfl)⟩

/-- C7: `$getChildren` on a view id absent from the registry rejects with
exactly the not-registered error, whose message contains the supplied id. -/
theorem getChildren_unregistered_rejects (reg : ExtHostModelViewTreeViews T)
    (treeViewId : String) (treeItemHandle : Option String)
    (h : lookupTreeView reg treeViewId = none) :
    dollarGetChildren reg treeViewId treeItemHandle =
      Except.error (notRegisteredMsg treeViewId) ∧
    ∃ pre post, notRegisteredMsg treeViewId = pre ++ treeViewId ++ post := by
  constructor
  · simp [dollarGetChildren, h]
  · exact ⟨"No tree view with id " ++ quoteChar, quoteChar ++ " registered.",
      by simp [notRegisteredMsg, String.append_assoc]⟩

/-- Witness for C7: the demo registry holds only key `"1-v"`, so
`$getChildren` for `"v1"` rejects with the message naming `"v1"`. -/
theorem getChildren_unregistered_rejects_witness :
    lookupTreeView demoRegistry "v1" = none ∧
    (dollarGetChildren demoRegistry "v1" none =
        Except.error (notRegisteredMsg "v1") ∧
      ∃ pre post, notRegisteredMsg "v1" = pre ++ "v1" ++ post) :=
  ⟨rfl, getChildren_unregistered_rejects demoRegistry "v1" none rfl⟩

/-- C8: on a registered view, `$onNodeCheckedChanged` forwards the resolved
element and checked value to the provider; a handle that resolves to no
cached element logs an error but the change is still forwarded with no
element; on an unregistered view id the call is a silent no-op with no
provider call. -/
theorem onNodeCheckedChanged_behaviour (reg : ExtHostModelViewTreeViews T)
    (treeViewId : String) (h : String) (checked : Option Bool)
    (tv : ExtHostTreeView T) (el : T) :
    (lookupTreeView reg treeViewId = some tv →
      getExtensionElement tv.state h = some el →
      dollarOnNodeCheckedChanged reg treeViewId (some h) checked =
        ([], [(some el, checked)])) ∧
    (lookupTreeView reg treeViewId = some tv →
      getExtensionElement tv.state h = none →
      dollarOnNodeCheckedChanged reg treeViewId (some h) checked =
        (["No tree item with id " ++ quoteChar ++ h ++ quoteChar ++ " found."],
         [(none, checked)])) ∧
    (lookupTreeView reg treeViewId = none →
      dollarOnNodeCheckedChanged reg treeViewId (some h) checked = ([], [])) := by
  refine ⟨?_, ?_, ?_⟩
  · intro h1 h2
    simp [dollarOnNodeCheckedChanged, h1, ExtHostTreeView.onNodeCheckedChanged, h2]
  · intro h1 h2
    simp [dollarOnNodeCheckedChanged, h1, ExtHostTreeView.onNodeCheckedChanged, h2]
  · intro h1
    simp [dollarOnNodeCheckedChanged, h1]

/-- Witness for C8: on the demo registry, handle `"h5"` forwards element
`5`, handle `"zz"` logs and forwards no element, and the id `"nope"` is a
silent no-op. -/
theorem onNodeCheckedChanged_behaviour_witness :
    lookupTreeView demoRegistry "1-v" = some demoTreeView ∧
    getExtensionElement demoTreeView.state "h5" = some 5 ∧
    getExtensionElement demoTreeView.state "zz" = none ∧
    lookupTreeView demoRegistry "nope" = none ∧
    dollarOnNodeCheckedChanged demoRegistry "1-v" (some "h5") (some true) =
      ([], [(some 5, some true)]) ∧
    dollarOnNodeCheckedChanged demoRegistry "1-v" (some "zz") (some true) =
      (["No tree item with id " ++ quoteChar ++ "zz" ++ quoteChar ++ " found."],
       [(none, some true)]) ∧
    dollarOnNodeCheckedChanged demoRegistry "nope" (some "h5") (some true) =
      ([], []) :=
  ⟨rfl, rfl, rfl, rfl,
   (onNodeCheckedChanged_behaviour demoRegistry "1-v" "h5" (some true)
     demoTreeView 5).1 rfl rfl,
   (onNodeCheckedChanged_behaviour demoRegistry "1-v" "zz" (some true)
     demoTreeView 5).2.1 rfl rfl,
   (onNodeCheckedChanged_behaviour demoRegistry "nope" "h5" (some true)
     demoTreeView 5).2.2 rfl⟩

/-- C2 (code bug): `createExtHostTreeViewer` registers the view under the
composite key `handle + "-" + componentId` (line 65), but the wrapper's
`dispose` deletes the bare `componentId` (line 41), which never matches.
After `dispose`, the view is still found under its registration key, and a
host-initiated `$getChildren` addressed to it still succeeds instead of
being rejected — the disposed state is not terminal. -/
theorem dispose_leaves_view_registered :
    (lookupTreeView (disposeTreeView
        (createExtHostTreeViewer (emptyTreeViews Nat) 1 "v" demoProvider) "v")
      (treeViewKey 1 "v")).isSome = true ∧
    (dollarGetChildren (disposeTreeView
        (createExtHostTreeViewer (emptyTreeViews Nat) 1 "v" demoProvider) "v")
      (treeViewKey 1 "v") none).isOk = true := by
  constructor <;> rfl

end SqlOps
